import Mathlib

/-!
Verification of `sentiment_analysis.py`: a shallow embedding of the script's
oracle client (`generate_content_from_file`), header/column resolution
(`get_column_index` and the column-creation block), and the per-row processing
loop of `process_reviews`, together with theorems settling the specification
claims about them.

External collaborators (the Gemini oracle, `json.loads`, the environment) are
passed in as explicit function arguments; everything the script itself computes
is translated directly from the source.
-/

namespace SentimentAnalysis

/-- A spreadsheet cell value: `none` models an empty cell / Python `None`,
`some s` a text cell (the script only handles text cells). -/
abbrev Cell := Option String

/-- ASCII lowercasing of one character. -/
def lowerChar (c : Char) : Char := c.toLower

/-- Python `str.lower()` as used on the ASCII header names (line 49). -/
def pyLower (s : String) : String := String.mk (s.data.map lowerChar)

/-- Whitespace test used by `pyStrip` (Python `str.strip()`). -/
def wsp (c : Char) : Bool := c.isWhitespace

/-- Python `str.strip()` on a character list: drop whitespace on the left,
then on the right. -/
def stripChars (l : List Char) : List Char :=
  ((l.dropWhile wsp).reverse.dropWhile wsp).reverse

/-- Python `str.strip()`. -/
def pyStrip (s : String) : String := String.mk (stripChars s.data)

/-- Does `pat` occur at the head of `s`? -/
def listStarts : List Char → List Char → Bool
  | [], _ => true
  | _ :: _, [] => false
  | p :: ps, c :: cs => p == c && listStarts ps cs

/-- One left-to-right pass of Python `str.replace(pat, "")`: the counter is the
number of characters of an already-matched occurrence still to be skipped. -/
def removeGo (pat : List Char) : List Char → Nat → List Char
  | [], _ => []
  | _ :: rest, k + 1 => removeGo pat rest k
  | c :: rest, 0 =>
      if pat ≠ [] ∧ listStarts pat (c :: rest) then removeGo pat rest (pat.length - 1)
      else c :: removeGo pat rest 0

/-- Python `s.replace(pat, "")`. -/
def pyReplaceEmpty (s pat : String) : String := String.mk (removeGo pat.data s.data 0)

/-- Line 107 of the script:
`api_response.replace("```json", "").replace("```", "").strip()`. -/
def stripFence (s : String) : String :=
  pyStrip (pyReplaceEmpty (pyReplaceEmpty s "```json") "```")

/-- The decoded JSON values the script distinguishes: strings, lists of strings
(the shape of `staff_names` / `dish_names`), and `null`. -/
inductive JVal where
  | jstr (s : String)
  | jlist (xs : List String)
  | jnull
deriving DecidableEq, Repr

/-- Is the value a JSON list? -/
def JVal.isList : JVal → Bool
  | .jlist _ => true
  | _ => false

/-- Python `dict.get(k, dflt)`: the default applies only when the key is absent. -/
def jGet (obj : List (String × JVal)) (k : String) (dflt : JVal) : JVal :=
  (obj.lookup k).getD dflt

/-- Outcome of one raw oracle attempt (`genai.GenerativeModel(...).generate_content`):
a text response, a `ResourceExhausted` (rate-limit) exception, or any other
exception. -/
inductive AttemptOutcome where
  | ok (text : String)
  | rateLimited
  | failed
deriving DecidableEq, Repr

/-- Result of `generate_content_from_file`: a normal return (possibly `None`,
line 43) or a re-raised `ResourceExhausted` (line 40). -/
inductive GenResult where
  | returned (v : Option String)
  | raisedRateLimit
deriving DecidableEq, Repr

/-- Trace of one `generate_content_from_file` call: its result, the backoff
sleeps performed (in order, in seconds), and the number of attempts made. -/
structure GenTrace where
  result : GenResult
  sleeps : List Nat
  attempts : Nat
deriving DecidableEq, Repr

/-- Line 29: `max_retries = 5`. -/
def max_retries : Nat := 5

/-- The retry loop of `generate_content_from_file` (lines 30-43): `a` is the
current 0-based attempt index, the fuel counts the loop iterations left
(`range(max_retries)`); falling off the loop returns `None`. -/
def genLoop (oracle : Nat → AttemptOutcome) : Nat → Nat → GenTrace
  | _, 0 => ⟨.returned none, [], 0⟩
  | a, fuel + 1 =>
    match oracle a with
    | .ok t => ⟨.returned (some (pyStrip t)), [], 1⟩
    | .failed => ⟨.returned none, [], 1⟩
    | .rateLimited =>
        if a < max_retries - 1 then
          let rest := genLoop oracle (a + 1) fuel
          ⟨rest.result, 9 ^ a :: rest.sleeps, rest.attempts + 1⟩
        else ⟨.raisedRateLimit, [], 1⟩

/-- `generate_content_from_file` (lines 15-43), with the oracle's behaviour on
each attempt supplied as a function. -/
def generate_content_from_file (oracle : Nat → AttemptOutcome) : GenTrace :=
  genLoop oracle 0 max_retries

/-- A worksheet: `header` is row 1, `rows` the data rows (`rows[i]` is sheet
row `i + 2`). -/
structure Sheet where
  header : List Cell
  rows : List (List Cell)
deriving DecidableEq, Repr

/-- Write into a list at 0-based position `i`, padding with empty cells. -/
def padSet : List Cell → Nat → Cell → List Cell
  | [], 0, v => [v]
  | [], n + 1, v => none :: padSet [] n v
  | _ :: t, 0, v => v :: t
  | h :: t, n + 1, v => h :: padSet t n v

/-- Update the 0-based `i`-th row with `f`, padding with empty rows if needed. -/
def rowsSet : List (List Cell) → Nat → (List Cell → List Cell) → List (List Cell)
  | [], 0, f => [f []]
  | [], n + 1, f => [] :: rowsSet [] n f
  | r :: t, 0, f => f r :: t
  | r :: t, n + 1, f => r :: rowsSet t n f

/-- The value at 1-based (row, column); `none` for anything unset or out of range. -/
def getCell (s : Sheet) (r c : Nat) : Cell :=
  if c = 0 then none
  else if r = 1 then s.header.getD (c - 1) none
  else if 2 ≤ r then (s.rows.getD (r - 2) []).getD (c - 1) none
  else none

/-- `sheet.cell(row=r, column=c, value=v)` at 1-based coordinates. -/
def setCell (s : Sheet) (r c : Nat) (v : Cell) : Sheet :=
  if c = 0 ∨ r = 0 then s
  else if r = 1 then { s with header := padSet s.header (c - 1) v }
  else { s with rows := rowsSet s.rows (r - 2) (fun row => padSet row (c - 1) v) }

/-- openpyxl `sheet.max_column`: the widest used column over all rows (at least 1). -/
def maxColumn (s : Sheet) : Nat :=
  max 1 (max s.header.length ((s.rows.map List.length).foldr max 0))

/-- The header-cell test of line 49:
`cell.value and cell.value.strip().lower() == column_name.lower()`. -/
def cellMatches (cell : Cell) (name : String) : Bool :=
  match cell with
  | none => false
  | some v => v ≠ "" && pyLower (pyStrip v) == pyLower name

/-- The scan over row 1 inside `get_column_index`, `i` the 1-based position of
the next cell. -/
def colSearch (name : String) : Nat → List Cell → Option Nat
  | _, [] => none
  | i, c :: rest => if cellMatches c name then some i else colSearch name (i + 1) rest

/-- `get_column_index` (lines 46-51): the 1-based position of the first header
cell whose trimmed, lowercased value equals the lowercased name, else `None`. -/
def get_column_index (header : List Cell) (name : String) : Option Nat :=
  colSearch name 1 header

/-- The four resolved output column positions. -/
structure Cols where
  sentiment : Nat
  staff : Nat
  dish : Nat
  category : Nat
deriving DecidableEq, Repr

/-- One `if not <x>_column_index:` block (lines 76-94): reuse the found position
or append the header name at the next free column. -/
def addCol (s : Sheet) (found : Option Nat) (name : String) (next : Nat) :
    Sheet × Nat × Nat :=
  match found with
  | some i => (s, i, next)
  | none => (setCell s 1 next (some name), next, next + 1)

/-- Lines 62-94: look the four output columns up in the original header, then
append each missing one, in the fixed order Sentiment, Staff Names, Dish Names,
Category, starting at `sheet.max_column + 1`. -/
def ensureColumns (s : Sheet) : Sheet × Cols :=
  let si := get_column_index s.header "Sentiment"
  let st := get_column_index s.header "Staff Names"
  let di := get_column_index s.header "Dish Names"
  let ca := get_column_index s.header "Category"
  let p1 := addCol s si "Sentiment" (maxColumn s + 1)
  let p2 := addCol p1.1 st "Staff Names" p1.2.2
  let p3 := addCol p2.1 di "Dish Names" p2.2.2
  let p4 := addCol p3.1 ca "Category" p3.2.2
  (p4.1, ⟨p1.2.1, p2.2.1, p3.2.1, p4.2.1⟩)

/-- Outcome of `json.loads` on the cleaned response text: a JSON object
(modelled as an association list), a `json.JSONDecodeError`, or a
`UnicodeDecodeError` (the two handlers of lines 124-142). -/
inductive DecodeResult where
  | ok (obj : List (String × JVal))
  | jsonError
  | encodingError
deriving DecidableEq, Repr

/-- The four cell values a processed row receives, in the write order of
lines 117-120: sentiment, staff, dish, category. -/
structure Quad where
  sent : Cell
  staff : Cell
  dish : Cell
  cat : Cell
deriving DecidableEq, Repr

/-- Four copies of one sentinel string, as all four sentinel-writing blocks do. -/
def quadOf (w : String) : Quad := ⟨some w, some w, some w, some w⟩

/-- Cell value written for `sentiment` / `category`: the decoded value verbatim;
JSON `null` leaves the cell empty. (A list value would make the openpyxl write
raise, which the outer handler converts to the `"Error"` sentinel; that case is
routed to `quadOf "Error"` by the guard in `respQuad`, matching the net effect.) -/
def scalarCell : JVal → Cell
  | .jstr v => some v
  | .jnull => none
  | .jlist _ => none

/-- Lines 118-119: `', '.join(x) if isinstance(x, list) else str(x)`. -/
def seqText : JVal → String
  | .jlist xs => String.intercalate ", " xs
  | .jstr v => v
  | .jnull => "None"

/-- Net effect of lines 106-142 on the four cells, given a truthy response text:
strip fence markup, decode, extract the four fields with their `dict.get`
defaults, or produce the decode-failure sentinels. -/
def respQuad (decode : String → DecodeResult) (resp : String) : Quad :=
  match decode (stripFence resp) with
  | .jsonError => quadOf "JSON Error"
  | .encodingError => quadOf "Encoding Error"
  | .ok obj =>
      let sentiment := jGet obj "sentiment" (.jstr "Unknown")
      let staff := jGet obj "staff_names" (.jlist [])
      let dish := jGet obj "dish_names" (.jlist [])
      let category := jGet obj "category" (.jstr "Unknown")
      if sentiment.isList || category.isList then quadOf "Error"
      else ⟨scalarCell sentiment, some (seqText staff), some (seqText dish),
            scalarCell category⟩

/-- Line 97: `row[reviews_column_index - 1] if len(row) >= reviews_column_index
else None`. -/
def pyRowGet (row : List Cell) (idx : Nat) : Cell :=
  if idx ≤ row.length then row.getD (idx - 1) none else none

/-- The four values lines 96-162 produce for one data row: `none` when the row
is skipped because the review cell is not truthy (line 99 / 160-162), otherwise
the values or the sentinel of the failure kind — `"Error"` when the oracle call
raises out of its retries (caught at line 153), `"API Error"` when it returns a
falsy response (line 145-150), and the decode sentinels from `respQuad`. -/
def rowValues (api : String → GenTrace) (decode : String → DecodeResult)
    (revIdx : Nat) (row : List Cell) : Option Quad :=
  match pyRowGet row revIdx with
  | none => none
  | some t =>
      if t = "" then none
      else some (match (api t).result with
        | .raisedRateLimit => quadOf "Error"
        | .returned none => quadOf "API Error"
        | .returned (some resp) =>
            if resp = "" then quadOf "API Error" else respQuad decode resp)

/-- The four writes of one row, in source order (sentiment, staff, dish,
category), all at row `n`. -/
def write4 (s : Sheet) (n : Nat) (cols : Cols) (q : Quad) : Sheet :=
  setCell (setCell (setCell (setCell s n cols.sentiment q.sent)
    n cols.staff q.staff) n cols.dish q.dish) n cols.category q.cat

/-- One iteration of the row loop: compute the row's outcome and write it back
(no write at all for a skipped row). -/
def processRow (api : String → GenTrace) (decode : String → DecodeResult)
    (cols : Cols) (revIdx : Nat) (n : Nat) (row : List Cell) (s : Sheet) : Sheet :=
  match rowValues api decode revIdx row with
  | none => s
  | some q => write4 s n cols q

/-- The `for row_num, row in enumerate(sheet.iter_rows(min_row=2, ...), start=2)`
loop of line 96, threading the sheet state. -/
def rowLoop (api : String → GenTrace) (decode : String → DecodeResult)
    (cols : Cols) (revIdx : Nat) : Nat → List (List Cell) → Sheet → Sheet
  | _, [], s => s
  | n, row :: rest, s =>
      rowLoop api decode cols revIdx (n + 1) rest (processRow api decode cols revIdx n row s)

/-- `process_reviews` on one worksheet (lines 58-162): resolve the `Reviews`
column (lines 68-71 skip the whole sheet when it is absent, before anything is
written), ensure the four output columns, then run the row loop from row 2. -/
def processSheet (api : String → GenTrace) (decode : String → DecodeResult)
    (s : Sheet) : Sheet :=
  match get_column_index s.header "Reviews" with
  | none => s
  | some revIdx =>
      let p := ensureColumns s
      rowLoop api decode p.2 revIdx 2 p.1.rows p.1

/-- `process_reviews` over the whole workbook (lines 54-165): each sheet is
processed in turn; the workbook is saved once at the end. -/
def process_reviews (api : String → GenTrace) (decode : String → DecodeResult)
    (wb : List Sheet) : List Sheet :=
  wb.map (processSheet api decode)

/-- Observable outcome of `main` (lines 170-181): whether the missing-key error
message was printed, the saved workbook (`none` when no processing happened),
and the process exit code. A plain `return` from Python `main` ends the script
normally, so the interpreter exits with code 0 in both branches. -/
structure RunOutcome where
  keyErrorPrinted : Bool
  saved : Option (List Sheet)
  exitCode : Nat
deriving DecidableEq, Repr

/-- `main` (lines 170-181), with the environment passed as an association list:
`os.environ.get("GEMINI_API_KEY")` is falsy when absent or empty, in which case
the function prints the error and returns before any processing. -/
def main (env : List (String × String)) (api : String → GenTrace)
    (decode : String → DecodeResult) (wb : List Sheet) : RunOutcome :=
  match env.lookup "GEMINI_API_KEY" with
  | none => ⟨true, none, 0⟩
  | some k =>
      if k = "" then ⟨true, none, 0⟩
      else ⟨false, some (process_reviews api decode wb), 0⟩

/-! ### Basic lemmas on cell access -/

theorem padSet_getD_self (l : List Cell) (i : Nat) (v : Cell) :
    (padSet l i v).getD i none = v := by
  induction l generalizing i with
  | nil =>
    induction i with
    | zero => rfl
    | succ n ih => simpa [padSet] using ih
  | cons h t ih =>
    cases i with
    | zero => rfl
    | succ n => simpa [padSet] using ih n

theorem padSet_getD_ne (l : List Cell) (i j : Nat) (v : Cell) (h : j ≠ i) :
    (padSet l i v).getD j none = l.getD j none := by
  induction l generalizing i j with
  | nil =>
    induction i generalizing j with
    | zero =>
      cases j with
      | zero => exact absurd rfl h
      | succ m => simp [padSet]
    | succ n ih =>
      cases j with
      | zero => simp [padSet]
      | succ m =>
        have := ih m (fun hc => h (by omega))
        simpa [padSet] using this
  | cons a t ih =>
    cases i with
    | zero =>
      cases j with
      | zero => exact absurd rfl h
      | succ m => simp [padSet]
    | succ n =>
      cases j with
      | zero => simp [padSet]
      | succ m =>
        have := ih n m (fun hc => h (by omega))
        simpa [padSet] using this

theorem rowsSet_getD_self (rs : List (List Cell)) (i : Nat) (f : List Cell → List Cell) :
    (rowsSet rs i f).getD i [] = f (rs.getD i []) := by
  induction rs generalizing i with
  | nil =>
    induction i with
    | zero => rfl
    | succ n ih => simpa [rowsSet] using ih
  | cons h t ih =>
    cases i with
    | zero => rfl
    | succ n => simpa [rowsSet] using ih n

theorem rowsSet_getD_ne (rs : List (List Cell)) (i j : Nat) (f : List Cell → List Cell)
    (h : j ≠ i) : (rowsSet rs i f).getD j [] = rs.getD j [] := by
  induction rs generalizing i j with
  | nil =>
    induction i generalizing j with
    | zero =>
      cases j with
      | zero => exact absurd rfl h
      | succ m => simp [rowsSet]
    | succ n ih =>
      cases j with
      | zero => simp [rowsSet]
      | succ m =>
        have := ih m (fun hc => h (by omega))
        simpa [rowsSet] using this
  | cons a t ih =>
    cases i with
    | zero =>
      cases j with
      | zero => exact absurd rfl h
      | succ m => simp [rowsSet]
    | succ n =>
      cases j with
      | zero => simp [rowsSet]
      | succ m =>
        have := ih n m (fun hc => h (by omega))
        simpa [rowsSet] using this

theorem setCell_header_row1 (s : Sheet) (c : Nat) (v : Cell) (hc : 1 ≤ c) :
    (setCell s 1 c v).header = padSet s.header (c - 1) v := by
  unfold setCell
  rw [if_neg (by omega : ¬ (c = 0 ∨ (1 : Nat) = 0)), if_pos rfl]

theorem setCell_rows_row1 (s : Sheet) (c : Nat) (v : Cell) :
    (setCell s 1 c v).rows = s.rows := by
  unfold setCell
  by_cases hc : c = 0
  · rw [if_pos (Or.inl hc)]
  · rw [if_neg (by omega : ¬ (c = 0 ∨ (1 : Nat) = 0)), if_pos rfl]

theorem setCell_header_row2 (s : Sheet) (r c : Nat) (v : Cell) (hr : 2 ≤ r) :
    (setCell s r c v).header = s.header := by
  unfold setCell
  by_cases hc : c = 0
  · rw [if_pos (Or.inl hc)]
  · rw [if_neg (by omega : ¬ (c = 0 ∨ r = 0)), if_neg (by omega : ¬ r = 1)]

theorem setCell_rows_row2 (s : Sheet) (r c : Nat) (v : Cell) (hr : 2 ≤ r) (hc : 1 ≤ c) :
    (setCell s r c v).rows = rowsSet s.rows (r - 2) (fun row => padSet row (c - 1) v) := by
  unfold setCell
  rw [if_neg (by omega : ¬ (c = 0 ∨ r = 0)), if_neg (by omega : ¬ r = 1)]

theorem getCell_row1 (s : Sheet) (c : Nat) (hc : 1 ≤ c) :
    getCell s 1 c = s.header.getD (c - 1) none := by
  unfold getCell
  rw [if_neg (by omega : ¬ c = 0), if_pos rfl]

theorem getCell_row2 (s : Sheet) (r c : Nat) (hr : 2 ≤ r) (hc : 1 ≤ c) :
    getCell s r c = (s.rows.getD (r - 2) []).getD (c - 1) none := by
  unfold getCell
  rw [if_neg (by omega : ¬ c = 0), if_neg (by omega : ¬ r = 1), if_pos hr]

theorem getCell_col0 (s : Sheet) (r : Nat) : getCell s r 0 = none := by
  unfold getCell
  rw [if_pos rfl]

theorem getCell_setCell_self (s : Sheet) (r c : Nat) (v : Cell)
    (hr : 1 ≤ r) (hc : 1 ≤ c) : getCell (setCell s r c v) r c = v := by
  by_cases hr1 : r = 1
  · subst hr1
    rw [getCell_row1 _ _ hc, setCell_header_row1 _ _ _ hc, padSet_getD_self]
  · have hr2 : 2 ≤ r := by omega
    rw [getCell_row2 _ _ _ hr2 hc, setCell_rows_row2 _ _ _ _ hr2 hc,
      rowsSet_getD_self, padSet_getD_self]

theorem getCell_setCell_ne (s : Sheet) (r c r' c' : Nat) (v : Cell)
    (h : r' ≠ r ∨ c' ≠ c) : getCell (setCell s r c v) r' c' = getCell s r' c' := by
  by_cases hz : c = 0 ∨ r = 0
  · simp [setCell, hz]
  · have hc : 1 ≤ c := by omega
    have hr : 1 ≤ r := by omega
    by_cases hc'0 : c' = 0
    · subst hc'0
      rw [getCell_col0, getCell_col0]
    · have hc' : 1 ≤ c' := by omega
      by_cases hr'1 : r' = 1
      · subst hr'1
        rw [getCell_row1 _ _ hc', getCell_row1 _ _ hc']
        by_cases hr1 : r = 1
        · subst hr1
          have hcc : c' ≠ c := by tauto
          rw [setCell_header_row1 _ _ _ hc, padSet_getD_ne _ _ _ _ (by omega)]
        · rw [setCell_header_row2 _ _ _ _ (by omega)]
      · by_cases hr'2 : 2 ≤ r'
        · rw [getCell_row2 _ _ _ hr'2 hc', getCell_row2 _ _ _ hr'2 hc']
          by_cases hr1 : r = 1
          · subst hr1
            rw [setCell_rows_row1]
          · rw [setCell_rows_row2 _ _ _ _ (by omega) hc]
            by_cases hrr : r' = r
            · subst hrr
              have hcc : c' ≠ c := by tauto
              rw [rowsSet_getD_self, padSet_getD_ne _ _ _ _ (by omega)]
            · rw [rowsSet_getD_ne _ _ _ _ (by omega)]
        · have hr'0 : r' = 0 := by omega
          subst hr'0
          unfold getCell
          rw [if_neg (by omega : ¬ c' = 0), if_neg (by omega : ¬ (0 : Nat) = 1),
            if_neg (by omega : ¬ 2 ≤ (0 : Nat)),
            if_neg (by omega : ¬ c' = 0), if_neg (by omega : ¬ (0 : Nat) = 1),
            if_neg (by omega : ¬ 2 ≤ (0 : Nat))]

/-- Reading column `c` of row `n` after the four writes of a row: later writes
win, which is why the lookup order is category, dish, staff, sentiment. -/
def quadAt (cols : Cols) (q : Quad) (c : Nat) : Option Cell :=
  if c = cols.category then some q.cat
  else if c = cols.dish then some q.dish
  else if c = cols.staff then some q.staff
  else if c = cols.sentiment then some q.sent
  else none

theorem getCell_write4 (s : Sheet) (n : Nat) (cols : Cols) (q : Quad) (c : Nat)
    (hn : 2 ≤ n) (h1 : 1 ≤ cols.sentiment) (h2 : 1 ≤ cols.staff)
    (h3 : 1 ≤ cols.dish) (h4 : 1 ≤ cols.category) :
    getCell (write4 s n cols q) n c = (quadAt cols q c).getD (getCell s n c) := by
  unfold write4 quadAt
  by_cases e4 : c = cols.category
  · subst e4
    rw [getCell_setCell_self _ _ _ _ (by omega) h4, if_pos rfl, Option.getD_some]
  · rw [getCell_setCell_ne _ _ _ _ _ _ (Or.inr e4), if_neg e4]
    by_cases e3 : c = cols.dish
    · subst e3
      rw [getCell_setCell_self _ _ _ _ (by omega) h3, if_pos rfl, Option.getD_some]
    · rw [getCell_setCell_ne _ _ _ _ _ _ (Or.inr e3), if_neg e3]
      by_cases e2 : c = cols.staff
      · subst e2
        rw [getCell_setCell_self _ _ _ _ (by omega) h2, if_pos rfl, Option.getD_some]
      · rw [getCell_setCell_ne _ _ _ _ _ _ (Or.inr e2), if_neg e2]
        by_cases e1 : c = cols.sentiment
        · subst e1
          rw [getCell_setCell_self _ _ _ _ (by omega) h1, if_pos rfl, Option.getD_some]
        · rw [getCell_setCell_ne _ _ _ _ _ _ (Or.inr e1), if_neg e1]
          rfl

theorem getCell_write4_ne_row (s : Sheet) (n : Nat) (cols : Cols) (q : Quad)
    (r c : Nat) (h : r ≠ n) : getCell (write4 s n cols q) r c = getCell s r c := by
  unfold write4
  rw [getCell_setCell_ne _ _ _ _ _ _ (Or.inl h), getCell_setCell_ne _ _ _ _ _ _ (Or.inl h),
    getCell_setCell_ne _ _ _ _ _ _ (Or.inl h), getCell_setCell_ne _ _ _ _ _ _ (Or.inl h)]

theorem processRow_ne_row (api : String → GenTrace) (decode : String → DecodeResult)
    (cols : Cols) (revIdx : Nat) (n : Nat) (row : List Cell) (s : Sheet)
    (r c : Nat) (h : r ≠ n) :
    getCell (processRow api decode cols revIdx n row s) r c = getCell s r c := by
  unfold processRow
  cases rowValues api decode revIdx row with
  | none => rfl
  | some q => exact getCell_write4_ne_row _ _ _ _ _ _ h

theorem rowLoop_getCell_lt (api : String → GenTrace) (decode : String → DecodeResult)
    (cols : Cols) (revIdx : Nat) (rows : List (List Cell)) (n : Nat) (s : Sheet)
    (r c : Nat) (h : r < n) :
    getCell (rowLoop api decode cols revIdx n rows s) r c = getCell s r c := by
  induction rows generalizing n s with
  | nil => rfl
  | cons row rest ih =>
    rw [rowLoop, ih (n + 1) _ (by omega), processRow_ne_row _ _ _ _ _ _ _ _ _ (by omega)]

theorem rowLoop_getCell_ge (api : String → GenTrace) (decode : String → DecodeResult)
    (cols : Cols) (revIdx : Nat) (rows : List (List Cell)) (n : Nat) (s : Sheet)
    (r c : Nat) (h : n + rows.length ≤ r) :
    getCell (rowLoop api decode cols revIdx n rows s) r c = getCell s r c := by
  induction rows generalizing n s with
  | nil => rfl
  | cons row rest ih =>
    simp only [List.length_cons] at h
    rw [rowLoop, ih (n + 1) _ (by omega), processRow_ne_row _ _ _ _ _ _ _ _ _ (by omega)]

/-- The value the row loop leaves at data row `n + i`, column `c`: the row's own
outcome, over the sheet value it started with. -/
theorem rowLoop_getCell_at (api : String → GenTrace) (decode : String → DecodeResult)
    (cols : Cols) (revIdx : Nat) (rows : List (List Cell)) (n : Nat) (s : Sheet)
    (i c : Nat) (hi : i < rows.length) (hn : 2 ≤ n)
    (h1 : 1 ≤ cols.sentiment) (h2 : 1 ≤ cols.staff) (h3 : 1 ≤ cols.dish)
    (h4 : 1 ≤ cols.category) :
    getCell (rowLoop api decode cols revIdx n rows s) (n + i) c =
      match rowValues api decode revIdx (rows.getD i []) with
      | none => getCell s (n + i) c
      | some q => (quadAt cols q c).getD (getCell s (n + i) c) := by
  induction rows generalizing i n s with
  | nil => exact absurd hi (by simp)
  | cons row rest ih =>
    cases i with
    | zero =>
      rw [rowLoop, rowLoop_getCell_lt _ _ _ _ _ _ _ _ _ (by omega)]
      unfold processRow
      simp only [List.getD_cons_zero, Nat.add_zero]
      cases rowValues api decode revIdx row with
      | none => rfl
      | some q => exact getCell_write4 _ _ _ _ _ (by omega) h1 h2 h3 h4
    | succ j =>
      simp only [List.length_cons] at hi
      rw [rowLoop]
      have harr : n + (j + 1) = (n + 1) + j := by omega
      rw [harr, ih (n + 1) _ j (by omega) (by omega)]
      simp only [List.getD_cons_succ]
      rw [processRow_ne_row _ _ _ _ _ _ _ _ _ (by omega)]

/-! ### Characterisation of the column-creation block -/

/-- Counts a missing column (used for the positions of appended columns). -/
def missCount (o : Option Nat) : Nat := if o.isNone then 1 else 0

/-- Position at which `Sentiment` would be appended: `sheet.max_column + 1`. -/
def sentBase (s : Sheet) : Nat := maxColumn s + 1

/-- Position at which `Staff Names` would be appended. -/
def staffBase (s : Sheet) : Nat :=
  sentBase s + missCount (get_column_index s.header "Sentiment")

/-- Position at which `Dish Names` would be appended. -/
def dishBase (s : Sheet) : Nat :=
  staffBase s + missCount (get_column_index s.header "Staff Names")

/-- Position at which `Category` would be appended. -/
def catBase (s : Sheet) : Nat :=
  dishBase s + missCount (get_column_index s.header "Dish Names")

/-- The resolved `Sentiment` column: the found position, else the appended one. -/
def sentCol (s : Sheet) : Nat :=
  (get_column_index s.header "Sentiment").getD (sentBase s)

/-- The resolved `Staff Names` column. -/
def staffCol (s : Sheet) : Nat :=
  (get_column_index s.header "Staff Names").getD (staffBase s)

/-- The resolved `Dish Names` column. -/
def dishCol (s : Sheet) : Nat :=
  (get_column_index s.header "Dish Names").getD (dishBase s)

/-- The resolved `Category` column. -/
def catCol (s : Sheet) : Nat :=
  (get_column_index s.header "Category").getD (catBase s)

/-- Append one header cell when the column is missing. -/
def appIf (s : Sheet) (o : Option Nat) (name : String) (c : Nat) : Sheet :=
  if o.isNone then setCell s 1 c (some name) else s

/-- The sheet after the column-creation block of lines 74-94. -/
def headerApp (s : Sheet) : Sheet :=
  appIf (appIf (appIf (appIf s (get_column_index s.header "Sentiment") "Sentiment" (sentBase s))
    (get_column_index s.header "Staff Names") "Staff Names" (staffBase s))
    (get_column_index s.header "Dish Names") "Dish Names" (dishBase s))
    (get_column_index s.header "Category") "Category" (catBase s)

/-- The column-creation block, characterised: missing columns are appended at
the consecutive positions `sentBase ≤ staffBase ≤ dishBase ≤ catBase` (strictly
increasing among the missing ones), found columns are reused in place. -/
theorem ensureColumns_eq (s : Sheet) :
    ensureColumns s = (headerApp s, ⟨sentCol s, staffCol s, dishCol s, catCol s⟩) := by
  unfold ensureColumns headerApp sentCol staffCol dishCol catCol
    sentBase staffBase dishBase catBase
  cases h1 : get_column_index s.header "Sentiment" with
  | none =>
    cases h2 : get_column_index s.header "Staff Names" with
    | none =>
      cases h3 : get_column_index s.header "Dish Names" with
      | none =>
        cases h4 : get_column_index s.header "Category" with
        | none => simp [addCol, appIf, missCount, sentBase, staffBase, dishBase, catBase, h1, h2, h3, h4]
        | some i4 => simp [addCol, appIf, missCount, sentBase, staffBase, dishBase, catBase, h1, h2, h3, h4]
      | some i3 =>
        cases h4 : get_column_index s.header "Category" with
        | none => simp [addCol, appIf, missCount, sentBase, staffBase, dishBase, catBase, h1, h2, h3, h4]
        | some i4 => simp [addCol, appIf, missCount, sentBase, staffBase, dishBase, catBase, h1, h2, h3, h4]
    | some i2 =>
      cases h3 : get_column_index s.header "Dish Names" with
      | none =>
        cases h4 : get_column_index s.header "Category" with
        | none => simp [addCol, appIf, missCount, sentBase, staffBase, dishBase, catBase, h1, h2, h3, h4]
        | some i4 => simp [addCol, appIf, missCount, sentBase, staffBase, dishBase, catBase, h1, h2, h3, h4]
      | some i3 =>
        cases h4 : get_column_index s.header "Category" with
        | none => simp [addCol, appIf, missCount, sentBase, staffBase, dishBase, catBase, h1, h2, h3, h4]
        | some i4 => simp [addCol, appIf, missCount, sentBase, staffBase, dishBase, catBase, h1, h2, h3, h4]
  | some i1 =>
    cases h2 : get_column_index s.header "Staff Names" with
    | none =>
      cases h3 : get_column_index s.header "Dish Names" with
      | none =>
        cases h4 : get_column_index s.header "Category" with
        | none => simp [addCol, appIf, missCount, sentBase, staffBase, dishBase, catBase, h1, h2, h3, h4]
        | some i4 => simp [addCol, appIf, missCount, sentBase, staffBase, dishBase, catBase, h1, h2, h3, h4]
      | some i3 =>
        cases h4 : get_column_index s.header "Category" with
        | none => simp [addCol, appIf, missCount, sentBase, staffBase, dishBase, catBase, h1, h2, h3, h4]
        | some i4 => simp [addCol, appIf, missCount, sentBase, staffBase, dishBase, catBase, h1, h2, h3, h4]
    | some i2 =>
      cases h3 : get_column_index s.header "Dish Names" with
      | none =>
        cases h4 : get_column_index s.header "Category" with
        | none => simp [addCol, appIf, missCount, sentBase, staffBase, dishBase, catBase, h1, h2, h3, h4]
        | some i4 => simp [addCol, appIf, missCount, sentBase, staffBase, dishBase, catBase, h1, h2, h3, h4]
      | some i3 =>
        cases h4 : get_column_index s.header "Category" with
        | none => simp [addCol, appIf, missCount, sentBase, staffBase, dishBase, catBase, h1, h2, h3, h4]
        | some i4 => simp [addCol, appIf, missCount, sentBase, staffBase, dishBase, catBase, h1, h2, h3, h4]

/-! ### Lookup facts and distinctness of the resolved columns -/

theorem colSearch_bounds (name : String) (h : List Cell) (k i : Nat)
    (he : colSearch name k h = some i) :
    k ≤ i ∧ i < k + h.length ∧ cellMatches (h.getD (i - k) none) name = true := by
  induction h generalizing k with
  | nil => exact absurd he (by simp [colSearch])
  | cons c rest ih =>
    rw [colSearch] at he
    by_cases hm : cellMatches c name
    · rw [if_pos hm] at he
      cases he
      refine ⟨Nat.le_refl _, by simp, ?_⟩
      simpa using hm
    · rw [if_neg hm] at he
      obtain ⟨hk, hl, hc⟩ := ih (k + 1) he
      refine ⟨by omega, by simp only [List.length_cons]; omega, ?_⟩
      have : i - k = (i - (k + 1)) + 1 := by omega
      rw [this, List.getD_cons_succ]
      exact hc

theorem gci_bounds (h : List Cell) (name : String) (i : Nat)
    (he : get_column_index h name = some i) :
    1 ≤ i ∧ i ≤ h.length ∧ cellMatches (h.getD (i - 1) none) name = true := by
  obtain ⟨hk, hl, hc⟩ := colSearch_bounds name h 1 i he
  exact ⟨hk, by omega, hc⟩

theorem cellMatches_name_eq (cell : Cell) (n1 n2 : String)
    (h1 : cellMatches cell n1 = true) (h2 : cellMatches cell n2 = true) :
    pyLower n1 = pyLower n2 := by
  cases cell with
  | none => exact absurd h1 (by simp [cellMatches])
  | some v =>
    simp only [cellMatches, Bool.and_eq_true, beq_iff_eq] at h1 h2
    rw [← h1.2, h2.2]

theorem gci_ne (h : List Cell) (n1 n2 : String) (i j : Nat)
    (hn : pyLower n1 ≠ pyLower n2)
    (h1 : get_column_index h n1 = some i) (h2 : get_column_index h n2 = some j) :
    i ≠ j := by
  intro he
  subst he
  obtain ⟨-, -, hc1⟩ := gci_bounds h n1 i h1
  obtain ⟨-, -, hc2⟩ := gci_bounds h n2 i h2
  exact hn (cellMatches_name_eq _ _ _ hc1 hc2)

theorem header_le_maxColumn (s : Sheet) : s.header.length ≤ maxColumn s :=
  le_trans (le_max_left _ _) (le_max_right _ _)

theorem one_le_maxColumn (s : Sheet) : 1 ≤ maxColumn s := le_max_left _ _

theorem gci_le_maxColumn (s : Sheet) (name : String) (i : Nat)
    (he : get_column_index s.header name = some i) : i ≤ maxColumn s :=
  le_trans (gci_bounds _ _ _ he).2.1 (header_le_maxColumn s)

theorem sentCol_char (s : Sheet) :
    (get_column_index s.header "Sentiment" = some (sentCol s) ∧
      1 ≤ sentCol s ∧ sentCol s ≤ maxColumn s) ∨
    (get_column_index s.header "Sentiment" = none ∧ sentCol s = sentBase s ∧
      sentBase s < staffBase s) := by
  unfold sentCol
  cases h : get_column_index s.header "Sentiment" with
  | none =>
    refine Or.inr ⟨rfl, rfl, ?_⟩
    unfold staffBase missCount
    rw [h]
    simp
  | some i =>
    obtain ⟨hi1, hi2, -⟩ := gci_bounds _ _ _ h
    exact Or.inl ⟨by simp, hi1, le_trans hi2 (header_le_maxColumn s)⟩

theorem staffCol_char (s : Sheet) :
    (get_column_index s.header "Staff Names" = some (staffCol s) ∧
      1 ≤ staffCol s ∧ staffCol s ≤ maxColumn s) ∨
    (get_column_index s.header "Staff Names" = none ∧ staffCol s = staffBase s ∧
      staffBase s < dishBase s) := by
  unfold staffCol
  cases h : get_column_index s.header "Staff Names" with
  | none =>
    refine Or.inr ⟨rfl, rfl, ?_⟩
    unfold dishBase missCount
    rw [h]
    simp
  | some i =>
    obtain ⟨hi1, hi2, -⟩ := gci_bounds _ _ _ h
    exact Or.inl ⟨by simp, hi1, le_trans hi2 (header_le_maxColumn s)⟩

theorem dishCol_char (s : Sheet) :
    (get_column_index s.header "Dish Names" = some (dishCol s) ∧
      1 ≤ dishCol s ∧ dishCol s ≤ maxColumn s) ∨
    (get_column_index s.header "Dish Names" = none ∧ dishCol s = dishBase s ∧
      dishBase s < catBase s) := by
  unfold dishCol
  cases h : get_column_index s.header "Dish Names" with
  | none =>
    refine Or.inr ⟨rfl, rfl, ?_⟩
    unfold catBase missCount
    rw [h]
    simp
  | some i =>
    obtain ⟨hi1, hi2, -⟩ := gci_bounds _ _ _ h
    exact Or.inl ⟨by simp, hi1, le_trans hi2 (header_le_maxColumn s)⟩

theorem catCol_char (s : Sheet) :
    (get_column_index s.header "Category" = some (catCol s) ∧
      1 ≤ catCol s ∧ catCol s ≤ maxColumn s) ∨
    (get_column_index s.header "Category" = none ∧ catCol s = catBase s) := by
  unfold catCol
  cases h : get_column_index s.header "Category" with
  | none => exact Or.inr ⟨rfl, rfl⟩
  | some i =>
    obtain ⟨hi1, hi2, -⟩ := gci_bounds _ _ _ h
    exact Or.inl ⟨by simp, hi1, le_trans hi2 (header_le_maxColumn s)⟩

theorem maxColumn_lt_sentBase (s : Sheet) : maxColumn s < sentBase s :=
  Nat.lt_succ_self _

theorem sentBase_le_staffBase (s : Sheet) : sentBase s ≤ staffBase s :=
  Nat.le_add_right _ _

theorem staffBase_le_dishBase (s : Sheet) : staffBase s ≤ dishBase s :=
  Nat.le_add_right _ _

theorem dishBase_le_catBase (s : Sheet) : dishBase s ≤ catBase s :=
  Nat.le_add_right _ _

/-- The four resolved columns are positive, pairwise distinct, and distinct
from the `Reviews` column: distinct names can never resolve to the same header
cell, and appended positions lie beyond every original column. -/
theorem colsProps (s : Sheet) :
    (1 ≤ sentCol s ∧ 1 ≤ staffCol s ∧ 1 ≤ dishCol s ∧ 1 ≤ catCol s) ∧
    (sentCol s ≠ staffCol s ∧ sentCol s ≠ dishCol s ∧ sentCol s ≠ catCol s ∧
      staffCol s ≠ dishCol s ∧ staffCol s ≠ catCol s ∧ dishCol s ≠ catCol s) := by
  have hM0 := one_le_maxColumn s
  have hMs := maxColumn_lt_sentBase s
  have h12 := sentBase_le_staffBase s
  have h23 := staffBase_le_dishBase s
  have h34 := dishBase_le_catBase s
  rcases sentCol_char s with ⟨e1, b1, b1'⟩ | ⟨e1, b1, b1'⟩ <;>
    rcases staffCol_char s with ⟨e2, b2, b2'⟩ | ⟨e2, b2, b2'⟩ <;>
    rcases dishCol_char s with ⟨e3, b3, b3'⟩ | ⟨e3, b3, b3'⟩ <;>
    rcases catCol_char s with ⟨e4, b4, b4'⟩ | ⟨e4, b4⟩ <;>
    refine ⟨⟨?_, ?_, ?_, ?_⟩, ?_, ?_, ?_, ?_, ?_, ?_⟩ <;>
    first
      | omega
      | exact gci_ne _ _ _ _ _ (by decide) e1 e2
      | exact gci_ne _ _ _ _ _ (by decide) e1 e3
      | exact gci_ne _ _ _ _ _ (by decide) e1 e4
      | exact gci_ne _ _ _ _ _ (by decide) e2 e3
      | exact gci_ne _ _ _ _ _ (by decide) e2 e4
      | exact gci_ne _ _ _ _ _ (by decide) e3 e4

/-- The `Reviews` column is distinct from each resolved output column. -/
theorem reviewsNe (s : Sheet) (ri : Nat)
    (hri : get_column_index s.header "Reviews" = some ri) :
    ri ≠ sentCol s ∧ ri ≠ staffCol s ∧ ri ≠ dishCol s ∧ ri ≠ catCol s := by
  have hM0 := one_le_maxColumn s
  have hMs := maxColumn_lt_sentBase s
  have h12 := sentBase_le_staffBase s
  have h23 := staffBase_le_dishBase s
  have h34 := dishBase_le_catBase s
  have hrb := gci_le_maxColumn s _ _ hri
  rcases sentCol_char s with ⟨e1, b1, b1'⟩ | ⟨e1, b1, b1'⟩ <;>
    rcases staffCol_char s with ⟨e2, b2, b2'⟩ | ⟨e2, b2, b2'⟩ <;>
    rcases dishCol_char s with ⟨e3, b3, b3'⟩ | ⟨e3, b3, b3'⟩ <;>
    rcases catCol_char s with ⟨e4, b4, b4'⟩ | ⟨e4, b4⟩ <;>
    refine ⟨?_, ?_, ?_, ?_⟩ <;>
    first
      | omega
      | exact gci_ne _ _ _ _ _ (by decide) hri e1
      | exact gci_ne _ _ _ _ _ (by decide) hri e2
      | exact gci_ne _ _ _ _ _ (by decide) hri e3
      | exact gci_ne _ _ _ _ _ (by decide) hri e4

/-! ### Header-append preservation -/

theorem appIf_rows (s' : Sheet) (o : Option Nat) (name : String) (b : Nat) :
    (appIf s' o name b).rows = s'.rows := by
  unfold appIf
  split
  · exact setCell_rows_row1 _ _ _
  · rfl

theorem headerApp_rows (s : Sheet) : (headerApp s).rows = s.rows := by
  unfold headerApp
  rw [appIf_rows, appIf_rows, appIf_rows, appIf_rows]

theorem getCell_appIf_ne (s' : Sheet) (o : Option Nat) (name : String) (b c : Nat)
    (h : c ≠ b) : getCell (appIf s' o name b) 1 c = getCell s' 1 c := by
  unfold appIf
  split
  · exact getCell_setCell_ne _ _ _ _ _ _ (Or.inr h)
  · rfl

theorem getCell_appIf_row (s' : Sheet) (o : Option Nat) (name : String) (b : Nat)
    (r c : Nat) (h : r ≠ 1) : getCell (appIf s' o name b) r c = getCell s' r c := by
  unfold appIf
  split
  · exact getCell_setCell_ne _ _ _ _ _ _ (Or.inl h)
  · rfl

theorem getCell_appIf_self (s' : Sheet) (name : String) (b : Nat) (hb : 1 ≤ b) :
    getCell (appIf s' none name b) 1 b = some name := by
  unfold appIf
  rw [if_pos (show (none : Option Nat).isNone = true from rfl)]
  exact getCell_setCell_self _ _ _ _ (by omega) hb

/-- Header appends never touch columns at or below the original `max_column`. -/
theorem headerApp_getCell_le (s : Sheet) (c : Nat) (hc : c ≤ maxColumn s) :
    getCell (headerApp s) 1 c = getCell s 1 c := by
  have hMs := maxColumn_lt_sentBase s
  have h12 := sentBase_le_staffBase s
  have h23 := staffBase_le_dishBase s
  have h34 := dishBase_le_catBase s
  unfold headerApp
  rw [getCell_appIf_ne _ _ _ _ _ (by omega), getCell_appIf_ne _ _ _ _ _ (by omega),
    getCell_appIf_ne _ _ _ _ _ (by omega), getCell_appIf_ne _ _ _ _ _ (by omega)]

/-- Header appends never touch data rows. -/
theorem headerApp_getCell_row (s : Sheet) (r c : Nat) (h : r ≠ 1) :
    getCell (headerApp s) r c = getCell s r c := by
  unfold headerApp
  rw [getCell_appIf_row _ _ _ _ _ _ h, getCell_appIf_row _ _ _ _ _ _ h,
    getCell_appIf_row _ _ _ _ _ _ h, getCell_appIf_row _ _ _ _ _ _ h]

/-! ### Behaviour of the oracle client's retry loop -/

theorem genLoop_rl_then_ok (oracle : Nat → AttemptOutcome) (t : String) :
    ∀ (j a f : Nat), a + f = max_retries → j < f →
    (∀ i, i < j → oracle (a + i) = .rateLimited) → oracle (a + j) = .ok t →
    genLoop oracle a f =
      ⟨.returned (some (pyStrip t)), (List.range j).map (fun i => 9 ^ (a + i)), j + 1⟩ := by
  intro j
  induction j with
  | zero =>
    intro a f haf hj hrl hok
    cases f with
    | zero => omega
    | succ f' =>
      rw [genLoop]
      rw [show a + 0 = a from rfl] at hok
      rw [hok]
      simp
  | succ j ih =>
    intro a f haf hj hrl hok
    cases f with
    | zero => omega
    | succ f' =>
      rw [genLoop]
      have h0 : oracle a = .rateLimited := by
        have := hrl 0 (by omega)
        simpa using this
      rw [h0]
      rw [if_pos (by unfold max_retries at haf ⊢; omega)]
      have hrl' : ∀ i, i < j → oracle ((a + 1) + i) = .rateLimited := by
        intro i hi
        have := hrl (i + 1) (by omega)
        rwa [show a + (i + 1) = (a + 1) + i by omega] at this
      have hok' : oracle ((a + 1) + j) = .ok t := by
        rwa [show a + (j + 1) = (a + 1) + j by omega] at hok
      rw [ih (a + 1) f' (by omega) (by omega) hrl' hok']
      have hmap : (List.range j).map (fun i => 9 ^ (a + 1 + i)) =
          (List.range j).map (fun i => 9 ^ (a + (i + 1))) :=
        List.map_congr_left (fun i _ => by rw [show a + 1 + i = a + (i + 1) from by omega])
      simp [List.range_succ_eq_map, List.map_map, Function.comp, hmap]

theorem genLoop_rl_then_fail (oracle : Nat → AttemptOutcome) :
    ∀ (j a f : Nat), a + f = max_retries → j < f →
    (∀ i, i < j → oracle (a + i) = .rateLimited) → oracle (a + j) = .failed →
    genLoop oracle a f =
      ⟨.returned none, (List.range j).map (fun i => 9 ^ (a + i)), j + 1⟩ := by
  intro j
  induction j with
  | zero =>
    intro a f haf hj hrl hok
    cases f with
    | zero => omega
    | succ f' =>
      rw [genLoop]
      rw [show a + 0 = a from rfl] at hok
      rw [hok]
      simp
  | succ j ih =>
    intro a f haf hj hrl hok
    cases f with
    | zero => omega
    | succ f' =>
      rw [genLoop]
      have h0 : oracle a = .rateLimited := by
        have := hrl 0 (by omega)
        simpa using this
      rw [h0]
      rw [if_pos (by unfold max_retries at haf ⊢; omega)]
      have hrl' : ∀ i, i < j → oracle ((a + 1) + i) = .rateLimited := by
        intro i hi
        have := hrl (i + 1) (by omega)
        rwa [show a + (i + 1) = (a + 1) + i by omega] at this
      have hok' : oracle ((a + 1) + j) = .failed := by
        rwa [show a + (j + 1) = (a + 1) + j by omega] at hok
      rw [ih (a + 1) f' (by omega) (by omega) hrl' hok']
      have hmap : (List.range j).map (fun i => 9 ^ (a + 1 + i)) =
          (List.range j).map (fun i => 9 ^ (a + (i + 1))) :=
        List.map_congr_left (fun i _ => by rw [show a + 1 + i = a + (i + 1) from by omega])
      simp [List.range_succ_eq_map, List.map_map, Function.comp, hmap]

theorem genLoop_rl_exhaust (oracle : Nat → AttemptOutcome) :
    ∀ (f a : Nat), a + f = max_retries → 1 ≤ f →
    (∀ i, i < f → oracle (a + i) = .rateLimited) →
    genLoop oracle a f =
      ⟨.raisedRateLimit, (List.range (f - 1)).map (fun i => 9 ^ (a + i)), f⟩ := by
  intro f
  induction f with
  | zero => omega
  | succ f' ih =>
    intro a haf hf hrl
    rw [genLoop]
    have h0 : oracle a = .rateLimited := by
      have := hrl 0 (by omega)
      simpa using this
    rw [h0]
    cases Nat.eq_zero_or_pos f' with
    | inl hz =>
      subst hz
      rw [if_neg (by unfold max_retries at haf ⊢; omega)]
      simp
    | inr hp =>
      rw [if_pos (by unfold max_retries at haf ⊢; omega)]
      have hrl' : ∀ i, i < f' → oracle ((a + 1) + i) = .rateLimited := by
        intro i hi
        have := hrl (i + 1) (by omega)
        rwa [show a + (i + 1) = (a + 1) + i by omega] at this
      rw [ih (a + 1) (by omega) (by omega) hrl']
      have hsf : f' + 1 - 1 = (f' - 1) + 1 := by omega
      rw [hsf]
      have hmap : (List.range (f' - 1)).map (fun i => 9 ^ (a + 1 + i)) =
          (List.range (f' - 1)).map (fun i => 9 ^ (a + (i + 1))) :=
        List.map_congr_left (fun i _ => by rw [show a + 1 + i = a + (i + 1) from by omega])
      simp [List.range_succ_eq_map, List.map_map, Function.comp, hmap]

/-! ### Fence stripping: code-fence markers cancel out -/

theorem listStarts_length_le : ∀ (pat xs : List Char), listStarts pat xs = true →
    pat.length ≤ xs.length := by
  intro pat
  induction pat with
  | nil => intro xs _; simp
  | cons p ps ih =>
    intro xs h
    cases xs with
    | nil => exact absurd h (by simp [listStarts])
    | cons c cs =>
      simp only [listStarts, Bool.and_eq_true] at h
      simpa using ih cs h.2

theorem listStarts_append_left : ∀ (pat xs t : List Char), listStarts pat xs = true →
    listStarts pat (xs ++ t) = true := by
  intro pat
  induction pat with
  | nil => intro xs t _; rfl
  | cons p ps ih =>
    intro xs t h
    cases xs with
    | nil => exact absurd h (by simp [listStarts])
    | cons c cs =>
      simp only [listStarts, Bool.and_eq_true] at h
      simp only [List.cons_append, listStarts, Bool.and_eq_true]
      exact ⟨h.1, ih cs t h.2⟩

theorem listStarts_of_append : ∀ (pat xs t : List Char), pat.length ≤ xs.length →
    listStarts pat (xs ++ t) = listStarts pat xs := by
  intro pat
  induction pat with
  | nil => intro xs t _; rfl
  | cons p ps ih =>
    intro xs t h
    cases xs with
    | nil => simp at h
    | cons c cs =>
      simp only [List.length_cons] at h
      simp only [List.cons_append, listStarts]
      congr 1
      exact ih cs t (by omega)

theorem listStarts_append_mem : ∀ (pat xs : List Char) (y : Char) (ys : List Char),
    listStarts pat (xs ++ y :: ys) = true → xs.length < pat.length → y ∈ pat := by
  intro pat
  induction pat with
  | nil => intro xs y ys _ h; simp at h
  | cons p ps ih =>
    intro xs y ys h hl
    cases xs with
    | nil =>
      simp only [List.nil_append, listStarts, Bool.and_eq_true, beq_iff_eq] at h
      rw [← h.1]
      exact List.mem_cons_self _ _
    | cons c cs =>
      simp only [List.cons_append, listStarts, Bool.and_eq_true] at h
      simp only [List.length_cons] at hl
      exact List.mem_cons_of_mem _ (ih cs y ys h.2 (by omega))

theorem listStarts_self_append : ∀ (pat t : List Char), listStarts pat (pat ++ t) = true := by
  intro pat
  induction pat with
  | nil => intro t; rfl
  | cons p ps ih =>
    intro t
    simpa [listStarts] using ih t

theorem removeGo_skip (pat : List Char) : ∀ (xs ys : List Char),
    removeGo pat (xs ++ ys) xs.length = removeGo pat ys 0 := by
  intro xs
  induction xs with
  | nil => intro ys; rfl
  | cons x xs' ih =>
    intro ys
    simp only [List.cons_append, List.length_cons]
    rw [removeGo]
    exact ih ys

theorem removeGo_self_append (pat rest : List Char) (hne : pat ≠ []) :
    removeGo pat (pat ++ rest) 0 = removeGo pat rest 0 := by
  cases pat with
  | nil => exact absurd rfl hne
  | cons p ps =>
    simp only [List.cons_append]
    rw [removeGo, if_pos ⟨hne, by
      have := listStarts_self_append (p :: ps) rest
      simpa using this⟩]
    simp only [List.length_cons, Nat.add_sub_cancel]
    exact removeGo_skip _ ps rest

theorem removeGo_cons_nomatch (pat : List Char) (y : Char) (ys : List Char)
    (h : listStarts pat (y :: ys) = false) :
    removeGo pat (y :: ys) 0 = y :: removeGo pat ys 0 := by
  rw [removeGo, if_neg (by simp [h])]

theorem listStarts_cons_ne (pat : List Char) (y : Char) (ys : List Char)
    (hne : pat ≠ []) (hy : y ∉ pat) : listStarts pat (y :: ys) = false := by
  cases pat with
  | nil => exact absurd rfl hne
  | cons p ps =>
    simp only [listStarts, Bool.and_eq_false_iff, beq_eq_false_iff_ne]
    left
    intro he
    exact hy (he ▸ List.mem_cons_self _ _)

theorem removeGo_nl_split (pat : List Char) (hne : pat ≠ []) (hnl : '\n' ∉ pat)
    (ys : List Char) : ∀ (xs : List Char) (k : Nat), k ≤ xs.length →
    removeGo pat (xs ++ '\n' :: ys) k = removeGo pat xs k ++ '\n' :: removeGo pat ys 0 := by
  intro xs
  induction xs with
  | nil =>
    intro k hk
    have hk0 : k = 0 := by simpa using hk
    subst hk0
    simp only [List.nil_append]
    rw [removeGo_cons_nomatch pat _ _ (listStarts_cons_ne pat _ _ hne hnl)]
    rfl
  | cons x xs' ih =>
    intro k hk
    cases k with
    | succ k' =>
      simp only [List.cons_append]
      rw [removeGo, removeGo]
      exact ih k' (by simpa using hk)
    | zero =>
      simp only [List.cons_append]
      by_cases hs : listStarts pat (x :: xs') = true
      · have hlen := listStarts_length_le pat (x :: xs') hs
        have hplen : 1 ≤ pat.length := by
          cases pat with
          | nil => exact absurd rfl hne
          | cons a b => simp
        have hsext : listStarts pat (x :: (xs' ++ '\n' :: ys)) = true := by
          have := listStarts_append_left pat (x :: xs') ('\n' :: ys) hs
          simpa using this
        rw [removeGo, if_pos ⟨hne, hsext⟩, removeGo, if_pos ⟨hne, hs⟩]
        exact ih (pat.length - 1) (by simp only [List.length_cons] at hlen; omega)
      · have hs' : listStarts pat (x :: xs') = false := by
          cases h : listStarts pat (x :: xs') with
          | true => exact absurd h hs
          | false => rfl
        have hsext : listStarts pat (x :: (xs' ++ '\n' :: ys)) = false := by
          cases h : listStarts pat (x :: (xs' ++ '\n' :: ys)) with
          | false => rfl
          | true =>
            exfalso
            by_cases hl : pat.length ≤ (x :: xs').length
            · have := listStarts_of_append pat (x :: xs') ('\n' :: ys) hl
              simp only [List.cons_append] at this
              rw [this] at h
              exact hs h
            · have hmem := listStarts_append_mem pat (x :: xs') '\n' ys
                (by simpa using h) (by omega)
              exact hnl hmem
        rw [removeGo_cons_nomatch pat _ _ hsext, removeGo_cons_nomatch pat _ _ hs']
        rw [ih 0 (by omega)]
        rfl

/-- The character-level core of fence tolerance: removing the two marker
patterns from a response wrapped in the fence produced by the model yields the
same text as removing them from the bare response, up to the surrounding
newlines, which `strip()` then discards. -/
theorem removeGo_fence (R : List Char) :
    removeGo "```".data
        (removeGo "```json".data
          ("```json".data ++ '\n' :: (R ++ '\n' :: "```".data)) 0) 0 =
      '\n' :: (removeGo "```".data (removeGo "```json".data R 0) 0 ++ ['\n']) := by
  have hne1 : "```json".data ≠ [] := by decide
  have hne2 : "```".data ≠ [] := by decide
  have hnl1 : '\n' ∉ "```json".data := by decide
  have hnl2 : '\n' ∉ "```".data := by decide
  rw [removeGo_self_append _ _ hne1]
  rw [removeGo_cons_nomatch _ _ _ (listStarts_cons_ne _ _ _ hne1 hnl1)]
  rw [removeGo_nl_split _ hne1 hnl1 _ R 0 (by omega)]
  rw [show removeGo "```json".data "```".data 0 = "```".data from by decide]
  rw [removeGo_cons_nomatch _ _ _ (listStarts_cons_ne _ _ _ hne2 hnl2)]
  rw [removeGo_nl_split _ hne2 hnl2 _ (removeGo "```json".data R 0) 0 (by omega)]
  rw [show removeGo "```".data "```".data 0 = [] from by decide]

/-- Stripping whitespace ignores the newlines left by the cancelled fence. -/
theorem stripChars_wrap (l : List Char) :
    stripChars ('\n' :: (l ++ ['\n'])) = stripChars l := by
  unfold stripChars
  rw [List.dropWhile_cons_of_pos (by decide : wsp '\n' = true)]
  rw [List.dropWhile_append]
  by_cases he : (l.dropWhile wsp).isEmpty = true
  · rw [if_pos he]
    rw [show List.dropWhile wsp ['\n'] = [] from by decide]
    have : l.dropWhile wsp = [] := by
      cases h : l.dropWhile wsp with
      | nil => rfl
      | cons a b => rw [h] at he; simp at he
    rw [this]
  · rw [if_neg he]
    rw [List.reverse_append]
    simp only [List.reverse_cons, List.reverse_nil, List.nil_append, List.singleton_append]
    rw [List.dropWhile_cons_of_pos (by decide : wsp '\n' = true)]

/-- Line 107 applied to a response wrapped in ```` ```json ... ``` ```` fencing
yields exactly the cleaned text of the bare response. -/
theorem stripFence_fenced (r : String) :
    stripFence ("```json\n" ++ r ++ "\n```") = stripFence r := by
  unfold stripFence pyReplaceEmpty pyStrip
  have hdata : ("```json\n" ++ r ++ "\n```").data =
      "```json".data ++ '\n' :: (r.data ++ '\n' :: "```".data) := by
    simp only [String.data_append]
    rfl
  rw [show (String.mk (removeGo "```json".data ("```json\n" ++ r ++ "\n```").data 0)).data
      = removeGo "```json".data ("```json\n" ++ r ++ "\n```").data 0 from rfl]
  rw [show (String.mk (removeGo "```json".data r.data 0)).data
      = removeGo "```json".data r.data 0 from rfl]
  rw [hdata, removeGo_fence r.data, stripChars_wrap]

/-! ### Characterisation of one full sheet pass -/

theorem quadAt_sent (cols : Cols) (q : Quad)
    (h1 : cols.sentiment ≠ cols.staff) (h2 : cols.sentiment ≠ cols.dish)
    (h3 : cols.sentiment ≠ cols.category) :
    quadAt cols q cols.sentiment = some q.sent := by
  unfold quadAt
  rw [if_neg h3, if_neg h2, if_neg h1, if_pos rfl]

theorem quadAt_staff (cols : Cols) (q : Quad)
    (h1 : cols.staff ≠ cols.dish) (h2 : cols.staff ≠ cols.category) :
    quadAt cols q cols.staff = some q.staff := by
  unfold quadAt
  rw [if_neg h2, if_neg h1, if_pos rfl]

theorem quadAt_dish (cols : Cols) (q : Quad) (h : cols.dish ≠ cols.category) :
    quadAt cols q cols.dish = some q.dish := by
  unfold quadAt
  rw [if_neg h, if_pos rfl]

theorem quadAt_cat (cols : Cols) (q : Quad) :
    quadAt cols q cols.category = some q.cat := by
  unfold quadAt
  rw [if_pos rfl]

theorem quadAt_none (cols : Cols) (q : Quad) (c : Nat)
    (h1 : c ≠ cols.sentiment) (h2 : c ≠ cols.staff) (h3 : c ≠ cols.dish)
    (h4 : c ≠ cols.category) : quadAt cols q c = none := by
  unfold quadAt
  rw [if_neg h4, if_neg h3, if_neg h2, if_neg h1]

/-- What one pass leaves at data row `2 + k`, column `c`: the row's own outcome
written over the original content. -/
theorem processSheet_data_cell (api : String → GenTrace) (decode : String → DecodeResult)
    (s : Sheet) (revIdx : Nat)
    (hrev : get_column_index s.header "Reviews" = some revIdx)
    (k c : Nat) (hk : k < s.rows.length) :
    getCell (processSheet api decode s) (2 + k) c =
      match rowValues api decode revIdx (s.rows.getD k []) with
      | none => getCell s (2 + k) c
      | some q =>
          (quadAt ⟨sentCol s, staffCol s, dishCol s, catCol s⟩ q c).getD
            (getCell s (2 + k) c) := by
  obtain ⟨⟨p1, p2, p3, p4⟩, -⟩ := colsProps s
  unfold processSheet
  rw [hrev]
  simp only [ensureColumns_eq]
  rw [headerApp_rows]
  rw [rowLoop_getCell_at api decode _ revIdx s.rows 2 (headerApp s) k c hk (by omega) p1 p2 p3 p4]
  rw [headerApp_getCell_row s (2 + k) c (by omega)]

/-- Row 1 cells at or below the original `max_column` survive a pass. -/
theorem processSheet_row1 (api : String → GenTrace) (decode : String → DecodeResult)
    (s : Sheet) (revIdx : Nat)
    (hrev : get_column_index s.header "Reviews" = some revIdx)
    (c : Nat) (hc : c ≤ maxColumn s) :
    getCell (processSheet api decode s) 1 c = getCell s 1 c := by
  unfold processSheet
  rw [hrev]
  simp only [ensureColumns_eq]
  rw [rowLoop_getCell_lt _ _ _ _ _ _ _ _ _ (by omega)]
  exact headerApp_getCell_le s c hc

/-- Rows past the data range survive a pass. -/
theorem processSheet_beyond (api : String → GenTrace) (decode : String → DecodeResult)
    (s : Sheet) (revIdx : Nat)
    (hrev : get_column_index s.header "Reviews" = some revIdx)
    (r c : Nat) (hr : 2 + s.rows.length ≤ r) :
    getCell (processSheet api decode s) r c = getCell s r c := by
  unfold processSheet
  rw [hrev]
  simp only [ensureColumns_eq]
  rw [headerApp_rows]
  rw [rowLoop_getCell_ge _ _ _ _ _ _ _ _ _ (by omega)]
  exact headerApp_getCell_row s r c (by omega)

/-- A processed data row carrying outcome `q` ends with exactly `q` in the four
resolved output columns. -/
theorem processSheet_row_written (api : String → GenTrace) (decode : String → DecodeResult)
    (s : Sheet) (revIdx : Nat)
    (hrev : get_column_index s.header "Reviews" = some revIdx)
    (k : Nat) (hk : k < s.rows.length) (q : Quad)
    (hq : rowValues api decode revIdx (s.rows.getD k []) = some q) :
    getCell (processSheet api decode s) (2 + k) (sentCol s) = q.sent ∧
    getCell (processSheet api decode s) (2 + k) (staffCol s) = q.staff ∧
    getCell (processSheet api decode s) (2 + k) (dishCol s) = q.dish ∧
    getCell (processSheet api decode s) (2 + k) (catCol s) = q.cat := by
  obtain ⟨d12, d13, d14, d23, d24, d34⟩ := (colsProps s).2
  refine ⟨?_, ?_, ?_, ?_⟩
  · rw [processSheet_data_cell api decode s revIdx hrev k _ hk]
    simp only [hq]
    rw [show quadAt ⟨sentCol s, staffCol s, dishCol s, catCol s⟩ q (sentCol s) =
      some q.sent from quadAt_sent _ _ d12 d13 d14, Option.getD_some]
  · rw [processSheet_data_cell api decode s revIdx hrev k _ hk]
    simp only [hq]
    rw [show quadAt ⟨sentCol s, staffCol s, dishCol s, catCol s⟩ q (staffCol s) =
      some q.staff from quadAt_staff _ _ d23 d24, Option.getD_some]
  · rw [processSheet_data_cell api decode s revIdx hrev k _ hk]
    simp only [hq]
    rw [show quadAt ⟨sentCol s, staffCol s, dishCol s, catCol s⟩ q (dishCol s) =
      some q.dish from quadAt_dish _ _ d34, Option.getD_some]
  · rw [processSheet_data_cell api decode s revIdx hrev k _ hk]
    simp only [hq]
    rw [show quadAt ⟨sentCol s, staffCol s, dishCol s, catCol s⟩ q (catCol s) =
      some q.cat from quadAt_cat _ _, Option.getD_some]

/-- A skipped data row is left completely untouched. -/
theorem processSheet_row_skipped (api : String → GenTrace) (decode : String → DecodeResult)
    (s : Sheet) (revIdx : Nat)
    (hrev : get_column_index s.header "Reviews" = some revIdx)
    (k : Nat) (hk : k < s.rows.length)
    (hq : rowValues api decode revIdx (s.rows.getD k []) = none) (c : Nat) :
    getCell (processSheet api decode s) (2 + k) c = getCell s (2 + k) c := by
  rw [processSheet_data_cell api decode s revIdx hrev k c hk]
  simp only [hq]

/-- Outcome of a row with truthy review text `t`, by the oracle result. -/
theorem rowValues_eq (api : String → GenTrace) (decode : String → DecodeResult)
    (revIdx : Nat) (row : List Cell) (t : String)
    (ht : pyRowGet row revIdx = some t) (htne : t ≠ "") :
    rowValues api decode revIdx row = some (match (api t).result with
      | .raisedRateLimit => quadOf "Error"
      | .returned none => quadOf "API Error"
      | .returned (some resp) =>
          if resp = "" then quadOf "API Error" else respQuad decode resp) := by
  unfold rowValues
  rw [ht]
  simp [htne]

/-! ### Concrete instances used by the claim witnesses -/

/-- An oracle wrapper that always returns a fixed response text. -/
def demoApi : String → GenTrace := fun _ => ⟨.returned (some "resp"), [], 1⟩

/-- A decoder producing a fully populated annotation object. -/
def demoDecode : String → DecodeResult := fun _ =>
  .ok [("sentiment", .jstr "positive"), ("staff_names", .jlist []),
       ("dish_names", .jlist ["Pasta"]), ("category", .jstr "Food Quality")]

/-- A decoder whose sentiment field is free text far from the four enum values. -/
def decodeFree : String → DecodeResult := fun _ =>
  .ok [("sentiment", .jstr "absolutely wonderful")]

/-- A sheet with all five columns and four data rows: two good reviews, one that
makes the oracle fail, and one empty review. -/
def demoSheet : Sheet :=
  ⟨[some "Reviews", some "Sentiment", some "Staff Names", some "Dish Names", some "Category"],
   [[some "Great food"], [some "bad one"], [some ""], [some "also good"]]⟩

/-- A one-row sheet with all five columns. -/
def smallSheet : Sheet :=
  ⟨[some "Reviews", some "Sentiment", some "Staff Names", some "Dish Names", some "Category"],
   [[some "Great food"]]⟩

/-- A sheet with no `Reviews` column. -/
def noRevSheet : Sheet := ⟨[some "Name"], [[some "x"]]⟩

/-- An oracle wrapper raising `ResourceExhausted` out of its retries exactly on
the review `"bad one"`. -/
def apiMixed : String → GenTrace := fun t =>
  if t = "bad one" then ⟨.raisedRateLimit, [1, 9, 81, 729], 5⟩
  else ⟨.returned (some "resp"), [], 1⟩

/-- A raw oracle that is rate-limited four times, then succeeds. -/
def oracleRL4 : Nat → AttemptOutcome := fun i =>
  if i < 4 then .rateLimited else .ok "resp"

/-- A raw oracle that is always rate-limited. -/
def oracleRL5 : Nat → AttemptOutcome := fun _ => .rateLimited

/-- A raw oracle that fails with a non-rate-limit error immediately. -/
def oracleFail : Nat → AttemptOutcome := fun _ => .failed

/-- An oracle wrapper that returns the no-response marker `None`. -/
def apiNone : String → GenTrace := fun _ => ⟨.returned none, [], 1⟩

/-! ### Claim theorems -/

/-- Claim C1 (row-level failure isolation): on a sheet whose `Reviews` column
resolves, if row `k`'s processing fails — the oracle call raises out of its
retries, returns no (or an empty) response, or the decode step reports a JSON
or encoding failure — then all four output cells of row `k` hold one sentinel
string out of `Error` / `API Error` / `JSON Error` / `Encoding Error`, every
other row with review text receives exactly its own computed outcome, skipped
rows are untouched, and the pass is a total function of the sheet (it reaches
every row; nothing aborts). -/
theorem C1_row_isolation (api : String → GenTrace) (decode : String → DecodeResult)
    (s : Sheet) (revIdx k : Nat) (t : String)
    (hrev : get_column_index s.header "Reviews" = some revIdx)
    (hk : k < s.rows.length)
    (ht : pyRowGet (s.rows.getD k []) revIdx = some t) (htne : t ≠ "")
    (hfail : (api t).result = .raisedRateLimit ∨ (api t).result = .returned none ∨
      (∃ resp, resp ≠ "" ∧ (api t).result = .returned (some resp) ∧
        (decode (stripFence resp) = .jsonError ∨
         decode (stripFence resp) = .encodingError))) :
    (∃ w, (w = "Error" ∨ w = "API Error" ∨ w = "JSON Error" ∨ w = "Encoding Error") ∧
      getCell (processSheet api decode s) (2 + k) (sentCol s) = some w ∧
      getCell (processSheet api decode s) (2 + k) (staffCol s) = some w ∧
      getCell (processSheet api decode s) (2 + k) (dishCol s) = some w ∧
      getCell (processSheet api decode s) (2 + k) (catCol s) = some w) ∧
    (∀ j, j < s.rows.length → j ≠ k → ∀ q,
      rowValues api decode revIdx (s.rows.getD j []) = some q →
      getCell (processSheet api decode s) (2 + j) (sentCol s) = q.sent ∧
      getCell (processSheet api decode s) (2 + j) (staffCol s) = q.staff ∧
      getCell (processSheet api decode s) (2 + j) (dishCol s) = q.dish ∧
      getCell (processSheet api decode s) (2 + j) (catCol s) = q.cat) ∧
    (∀ j, j < s.rows.length →
      rowValues api decode revIdx (s.rows.getD j []) = none →
      ∀ c, getCell (processSheet api decode s) (2 + j) c = getCell s (2 + j) c) := by
  have hsent : ∃ w, (w = "Error" ∨ w = "API Error" ∨ w = "JSON Error" ∨
      w = "Encoding Error") ∧
      rowValues api decode revIdx (s.rows.getD k []) = some (quadOf w) := by
    have hrv := rowValues_eq api decode revIdx _ t ht htne
    rcases hfail with h | h | ⟨resp, hne, h, hd | hd⟩
    · rw [h] at hrv
      exact ⟨"Error", Or.inl rfl, hrv⟩
    · rw [h] at hrv
      exact ⟨"API Error", Or.inr (Or.inl rfl), hrv⟩
    · rw [h] at hrv
      refine ⟨"JSON Error", Or.inr (Or.inr (Or.inl rfl)), ?_⟩
      rw [hrv]
      simp only [if_neg hne]
      unfold respQuad
      rw [hd]
    · rw [h] at hrv
      refine ⟨"Encoding Error", Or.inr (Or.inr (Or.inr rfl)), ?_⟩
      rw [hrv]
      simp only [if_neg hne]
      unfold respQuad
      rw [hd]
  obtain ⟨w, hw, hq⟩ := hsent
  obtain ⟨w1, w2, w3, w4⟩ := processSheet_row_written api decode s revIdx hrev k hk _ hq
  refine ⟨⟨w, hw, w1, w2, w3, w4⟩, ?_, ?_⟩
  · intro j hj _ q hq2
    exact processSheet_row_written api decode s revIdx hrev j hj q hq2
  · intro j hj hq2 c
    exact processSheet_row_skipped api decode s revIdx hrev j hj hq2 c

/-- Witness for C1 on a concrete four-row sheet: row 2 (review "bad one") makes
the oracle raise and ends with a sentinel in the sentiment cell, row 1 is
annotated normally, and row 3 (empty review) is untouched. -/
theorem C1_row_isolation_witness :
    (∃ w, (w = "Error" ∨ w = "API Error" ∨ w = "JSON Error" ∨ w = "Encoding Error") ∧
      getCell (processSheet apiMixed demoDecode demoSheet) 3 2 = some w) ∧
    getCell (processSheet apiMixed demoDecode demoSheet) 2 2 = some "positive" ∧
    getCell (processSheet apiMixed demoDecode demoSheet) 4 3 = getCell demoSheet 4 3 := by
  obtain ⟨⟨w, hw, h1, h2, h3, h4⟩, hnorm, hskip⟩ :=
    C1_row_isolation apiMixed demoDecode demoSheet 1 1 "bad one" (by decide) (by decide)
      (by decide) (by decide) (Or.inl (by decide))
  refine ⟨⟨w, hw, h1⟩, ?_, ?_⟩
  · have hq : rowValues apiMixed demoDecode 1 (demoSheet.rows.getD 0 []) =
        some ⟨some "positive", some "", some "Pasta", some "Food Quality"⟩ := by decide
    exact (hnorm 0 (by decide) (by decide) _ hq).1
  · exact hskip 2 (by decide) (by decide) 3

/-- Claim C2 (retry/backoff schedule): when the oracle is rate-limited on the
first four attempts and succeeds on the fifth, `generate_content_from_file`
sleeps exactly 9^0, 9^1, 9^2, 9^3 seconds in that order and returns the
stripped response after 5 attempts; when the fifth attempt is rate-limited as
well, it re-raises after the same four sleeps with no further retry or sleep. -/
theorem C2_backoff_schedule (oracle oracle2 : Nat → AttemptOutcome) (t : String)
    (hrl : ∀ i, i < 4 → oracle i = .rateLimited) (hok : oracle 4 = .ok t)
    (hrl2 : ∀ i, i < 5 → oracle2 i = .rateLimited) :
    generate_content_from_file oracle =
      ⟨.returned (some (pyStrip t)), [1, 9, 81, 729], 5⟩ ∧
    generate_content_from_file oracle2 = ⟨.raisedRateLimit, [1, 9, 81, 729], 5⟩ := by
  have hm : (List.range 4).map (fun i => (9 : Nat) ^ (0 + i)) = [1, 9, 81, 729] := by decide
  constructor
  · have hres := genLoop_rl_then_ok oracle t 4 0 max_retries (by omega) (by decide)
      (fun i hi => by simpa using hrl i hi) (by simpa using hok)
    rw [generate_content_from_file, hres, hm]
  · have hres := genLoop_rl_exhaust oracle2 max_retries 0 (by omega) (by decide)
      (fun i hi => by simpa using hrl2 i hi)
    rw [generate_content_from_file, hres]
    decide

/-- Witness for C2 with concrete oracles. -/
theorem C2_backoff_schedule_witness :
    generate_content_from_file oracleRL4 =
      ⟨.returned (some (pyStrip "resp")), [1, 9, 81, 729], 5⟩ ∧
    generate_content_from_file oracleRL5 = ⟨.raisedRateLimit, [1, 9, 81, 729], 5⟩ :=
  C2_backoff_schedule oracleRL4 oracleRL5 "resp"
    (fun i hi => by simp [oracleRL4, hi]) (by decide) (fun i _ => rfl)

/-- Claim C5 (non-rate-limit errors never retried): if attempt `j` raises a
non-rate-limit error (after `j` rate-limited attempts), the client performs no
further sleep and no further attempt — the sleeps are exactly those of the
earlier rate limits, the attempt count is `j + 1` — and it returns the explicit
no-response marker; the orchestrator records the `API Error` sentinel for a row
whose call yields that marker. -/
theorem C5_non_rate_limit_no_retry (oracle : Nat → AttemptOutcome) (j : Nat)
    (hj : j < max_retries) (hrl : ∀ i, i < j → oracle i = .rateLimited)
    (hf : oracle j = .failed)
    (api : String → GenTrace) (decode : String → DecodeResult) (cols : Cols)
    (revIdx n : Nat) (row : List Cell) (s : Sheet) (t : String)
    (ht : pyRowGet row revIdx = some t) (htne : t ≠ "")
    (hapi : (api t).result = .returned none) :
    generate_content_from_file oracle =
      ⟨.returned none, (List.range j).map (fun i => 9 ^ i), j + 1⟩ ∧
    processRow api decode cols revIdx n row s = write4 s n cols (quadOf "API Error") := by
  constructor
  · have hres := genLoop_rl_then_fail oracle j 0 max_retries (by omega) hj
      (fun i hi => by simpa using hrl i hi) (by simpa using hf)
    have hmap : (fun i => (9 : Nat) ^ (0 + i)) = fun i : Nat => 9 ^ i :=
      funext fun i => by rw [Nat.zero_add]
    rw [generate_content_from_file, hres, hmap]
  · have hrv := rowValues_eq api decode revIdx row t ht htne
    rw [hapi] at hrv
    unfold processRow
    rw [hrv]

/-- Witness for C5: an immediately failing oracle makes one attempt, sleeps not
at all, returns `None`; the orchestrator writes the `API Error` sentinel. -/
theorem C5_non_rate_limit_no_retry_witness :
    generate_content_from_file oracleFail = ⟨.returned none, [], 1⟩ ∧
    processRow apiNone demoDecode ⟨2, 3, 4, 5⟩ 1 2 [some "hello"] demoSheet =
      write4 demoSheet 2 ⟨2, 3, 4, 5⟩ (quadOf "API Error") := by
  have h := C5_non_rate_limit_no_retry oracleFail 0 (by decide) (fun i hi => by omega)
    rfl apiNone demoDecode ⟨2, 3, 4, 5⟩ 1 2 [some "hello"] demoSheet "hello"
    (by decide) (by decide) rfl
  exact ⟨h.1, h.2⟩

/-- Claim C6 (empty-review skip): a data row whose review cell is missing, out
of range, or the empty string is skipped: its outcome is `none` regardless of
the oracle or decoder (no oracle call is consulted), none of its cells change,
and the other rows are still processed. -/
theorem C6_empty_review_skip (api : String → GenTrace) (decode : String → DecodeResult)
    (s : Sheet) (revIdx k : Nat)
    (hrev : get_column_index s.header "Reviews" = some revIdx)
    (hk : k < s.rows.length)
    (hempty : pyRowGet (s.rows.getD k []) revIdx = none ∨
      pyRowGet (s.rows.getD k []) revIdx = some "") :
    (∀ (api2 : String → GenTrace) (decode2 : String → DecodeResult),
      rowValues api2 decode2 revIdx (s.rows.getD k []) = none) ∧
    (∀ c, getCell (processSheet api decode s) (2 + k) c = getCell s (2 + k) c) ∧
    (∀ j, j < s.rows.length → j ≠ k → ∀ q,
      rowValues api decode revIdx (s.rows.getD j []) = some q →
      getCell (processSheet api decode s) (2 + j) (sentCol s) = q.sent) := by
  have hnone : ∀ (api2 : String → GenTrace) (decode2 : String → DecodeResult),
      rowValues api2 decode2 revIdx (s.rows.getD k []) = none := by
    intro api2 decode2
    unfold rowValues
    rcases hempty with h | h
    · rw [h]
    · rw [h]
      simp
  refine ⟨hnone, ?_, ?_⟩
  · intro c
    exact processSheet_row_skipped api decode s revIdx hrev k hk (hnone api decode) c
  · intro j hj _ q hq
    exact (processSheet_row_written api decode s revIdx hrev j hj q hq).1

/-- Witness for C6 on the empty review of row 3 of the demo sheet. -/
theorem C6_empty_review_skip_witness :
    rowValues apiMixed demoDecode 1 (demoSheet.rows.getD 2 []) = none ∧
    getCell (processSheet apiMixed demoDecode demoSheet) 4 2 = getCell demoSheet 4 2 := by
  obtain ⟨hnone, huntouched, -⟩ :=
    C6_empty_review_skip apiMixed demoDecode demoSheet 1 2 (by decide) (by decide)
      (Or.inr (by decide))
  exact ⟨hnone apiMixed demoDecode, huntouched 2⟩

/-- Claim C7 (missing-input-column recovery): a sheet with no `Reviews` column
is returned completely unchanged (nothing written; the decision reads only the
header), while every other sheet of the workbook is still processed. -/
theorem C7_missing_reviews_sheet_skipped (api : String → GenTrace)
    (decode : String → DecodeResult) (s : Sheet)
    (h : get_column_index s.header "Reviews" = none) (pre post : List Sheet) :
    processSheet api decode s = s ∧
    process_reviews api decode (pre ++ s :: post) =
      process_reviews api decode pre ++ s :: process_reviews api decode post := by
  have h1 : processSheet api decode s = s := by
    simp only [processSheet, h]
  exact ⟨h1, by simp [process_reviews, h1]⟩

/-- Witness for C7 with a concrete reviews-less sheet between two normal ones. -/
theorem C7_missing_reviews_sheet_skipped_witness :
    processSheet demoApi demoDecode noRevSheet = noRevSheet ∧
    process_reviews demoApi demoDecode ([demoSheet] ++ noRevSheet :: [smallSheet]) =
      process_reviews demoApi demoDecode [demoSheet] ++ noRevSheet ::
        process_reviews demoApi demoDecode [smallSheet] :=
  C7_missing_reviews_sheet_skipped demoApi demoDecode noRevSheet (by decide)
    [demoSheet] [smallSheet]

/-- Claim C8 (fenced-JSON tolerance): the cleaning step of line 107 maps a
response wrapped in ```` ```json ... ``` ```` markers to exactly the cleaned
text of the bare response, so every decoder extracts identical field values
from the fenced and unfenced forms. -/
theorem C8_fenced_json_tolerance (r : String) (decode : String → DecodeResult) :
    stripFence ("```json\n" ++ r ++ "\n```") = stripFence r ∧
    respQuad decode ("```json\n" ++ r ++ "\n```") = respQuad decode r := by
  refine ⟨stripFence_fenced r, ?_⟩
  unfold respQuad
  rw [stripFence_fenced r]

/-- Claim C3, counterexample: the script writes the decoded `sentiment` value
verbatim (lines 112 and 117). A response decoding to the free-text sentiment
`"absolutely wonderful"` lands in the sheet unchanged — it is none of the four
enum values Positive / Negative / Neutral / Unknown, and no case-normalising
substring match is applied anywhere. -/
theorem C3_counterexample :
    getCell (processSheet demoApi decodeFree smallSheet) 2 2 = some "absolutely wonderful" ∧
    ("absolutely wonderful" ≠ "Positive" ∧ "absolutely wonderful" ≠ "Negative" ∧
      "absolutely wonderful" ≠ "Neutral" ∧ "absolutely wonderful" ≠ "Unknown") := by
  constructor
  · decide
  · decide

/-- Claim C3 as amended: for every successfully decoded response whose
`sentiment` field is the string `v` (with `"Unknown"` substituted only when the
key is absent), the value written to the sentiment cell is exactly `v` — the
oracle's free text passes through without any normalisation. -/
theorem C3_sentiment_verbatim (api : String → GenTrace) (decode : String → DecodeResult)
    (s : Sheet) (revIdx k : Nat) (t resp : String) (obj : List (String × JVal)) (v : String)
    (hrev : get_column_index s.header "Reviews" = some revIdx)
    (hk : k < s.rows.length)
    (ht : pyRowGet (s.rows.getD k []) revIdx = some t) (htne : t ≠ "")
    (hresp : (api t).result = .returned (some resp)) (hrne : resp ≠ "")
    (hdec : decode (stripFence resp) = .ok obj)
    (hsent : jGet obj "sentiment" (.jstr "Unknown") = .jstr v)
    (hcat : (jGet obj "category" (.jstr "Unknown")).isList = false) :
    getCell (processSheet api decode s) (2 + k) (sentCol s) = some v := by
  have hq : rowValues api decode revIdx (s.rows.getD k []) =
      some ⟨some v, some (seqText (jGet obj "staff_names" (.jlist []))),
        some (seqText (jGet obj "dish_names" (.jlist []))),
        scalarCell (jGet obj "category" (.jstr "Unknown"))⟩ := by
    rw [rowValues_eq api decode revIdx _ t ht htne]
    simp only [hresp]
    rw [if_neg hrne]
    unfold respQuad
    simp only [hdec]
    simp only [hsent, hcat]
    simp [JVal.isList, scalarCell]
  exact (processSheet_row_written api decode s revIdx hrev k hk _ hq).1

/-- Witness for the amended C3 at the counterexample's concrete input. -/
theorem C3_sentiment_verbatim_witness :
    getCell (processSheet demoApi decodeFree smallSheet) 2 2 = some "absolutely wonderful" :=
  C3_sentiment_verbatim demoApi decodeFree smallSheet 1 0 "Great food" "resp"
    [("sentiment", .jstr "absolutely wonderful")] "absolutely wonderful"
    (by decide) (by decide) (by decide) (by decide) (by decide) (by decide)
    (by decide) (by decide) (by decide)

/-- Claim C4 (idempotent column creation): when all four output columns already
exist (case-insensitively, trimmed), the column block changes nothing — the
sheet is returned as-is, the resolved positions are the found ones, and a
second run gives literally the same result. In general the block resolves to
`(headerApp s, assigned positions)` where each missing column is appended at
the strictly increasing positions `sentBase ≤ staffBase ≤ dishBase ≤ catBase`
(all beyond the current `max_column`), in the fixed order Sentiment, Staff
Names, Dish Names, Category, and the appended header cell holds the column
name. -/
theorem C4_idempotent_columns (s : Sheet) :
    (∀ i1 i2 i3 i4,
      get_column_index s.header "Sentiment" = some i1 →
      get_column_index s.header "Staff Names" = some i2 →
      get_column_index s.header "Dish Names" = some i3 →
      get_column_index s.header "Category" = some i4 →
      ensureColumns s = (s, ⟨i1, i2, i3, i4⟩) ∧
      ensureColumns ((ensureColumns s).1) = ensureColumns s) ∧
    (ensureColumns s = (headerApp s, ⟨sentCol s, staffCol s, dishCol s, catCol s⟩) ∧
      maxColumn s < sentBase s ∧ sentBase s ≤ staffBase s ∧
      staffBase s ≤ dishBase s ∧ dishBase s ≤ catBase s ∧
      (get_column_index s.header "Sentiment" = none →
        sentCol s = sentBase s ∧
        getCell (ensureColumns s).1 1 (sentCol s) = some "Sentiment") ∧
      (get_column_index s.header "Staff Names" = none →
        staffCol s = staffBase s ∧
        getCell (ensureColumns s).1 1 (staffCol s) = some "Staff Names") ∧
      (get_column_index s.header "Dish Names" = none →
        dishCol s = dishBase s ∧
        getCell (ensureColumns s).1 1 (dishCol s) = some "Dish Names") ∧
      (get_column_index s.header "Category" = none →
        catCol s = catBase s ∧
        getCell (ensureColumns s).1 1 (catCol s) = some "Category")) := by
  have hM0 := one_le_maxColumn s
  have hMs := maxColumn_lt_sentBase s
  have h12 := sentBase_le_staffBase s
  have h23 := staffBase_le_dishBase s
  have h34 := dishBase_le_catBase s
  constructor
  · intro i1 i2 i3 i4 h1 h2 h3 h4
    have hH : headerApp s = s := by
      simp [headerApp, appIf, h1, h2, h3, h4]
    have hc1 : sentCol s = i1 := by simp [sentCol, h1]
    have hc2 : staffCol s = i2 := by simp [staffCol, h2]
    have hc3 : dishCol s = i3 := by simp [dishCol, h3]
    have hc4 : catCol s = i4 := by simp [catCol, h4]
    have hE : ensureColumns s = (s, ⟨i1, i2, i3, i4⟩) := by
      rw [ensureColumns_eq, hH, hc1, hc2, hc3, hc4]
    refine ⟨hE, ?_⟩
    rw [hE]
    exact hE
  · refine ⟨ensureColumns_eq s, hMs, h12, h23, h34, ?_, ?_, ?_, ?_⟩
    · intro h
      have hstrict : sentBase s < staffBase s := by
        unfold staffBase missCount
        rw [h]
        simp
      have hcol : sentCol s = sentBase s := by simp [sentCol, h]
      refine ⟨hcol, ?_⟩
      simp only [ensureColumns_eq]
      rw [hcol]
      unfold headerApp
      rw [getCell_appIf_ne _ _ _ _ _ (show sentBase s ≠ catBase s from by omega)]
      rw [getCell_appIf_ne _ _ _ _ _ (show sentBase s ≠ dishBase s from by omega)]
      rw [getCell_appIf_ne _ _ _ _ _ (show sentBase s ≠ staffBase s from by omega)]
      rw [h]
      exact getCell_appIf_self _ _ _ (by omega)
    · intro h
      have hstrict : staffBase s < dishBase s := by
        unfold dishBase missCount
        rw [h]
        simp
      have hcol : staffCol s = staffBase s := by simp [staffCol, h]
      refine ⟨hcol, ?_⟩
      simp only [ensureColumns_eq]
      rw [hcol]
      unfold headerApp
      rw [getCell_appIf_ne _ _ _ _ _ (show staffBase s ≠ catBase s from by omega)]
      rw [getCell_appIf_ne _ _ _ _ _ (show staffBase s ≠ dishBase s from by omega)]
      rw [h]
      exact getCell_appIf_self _ _ _ (by omega)
    · intro h
      have hstrict : dishBase s < catBase s := by
        unfold catBase missCount
        rw [h]
        simp
      have hcol : dishCol s = dishBase s := by simp [dishCol, h]
      refine ⟨hcol, ?_⟩
      simp only [ensureColumns_eq]
      rw [hcol]
      unfold headerApp
      rw [getCell_appIf_ne _ _ _ _ _ (show dishBase s ≠ catBase s from by omega)]
      rw [h]
      exact getCell_appIf_self _ _ _ (by omega)
    · intro h
      have hcol : catCol s = catBase s := by simp [catCol, h]
      refine ⟨hcol, ?_⟩
      simp only [ensureColumns_eq]
      rw [hcol]
      unfold headerApp
      rw [h]
      exact getCell_appIf_self _ _ _ (by omega)

/-- Witness for C4: on the fully-columned demo sheet the block is a no-op and
re-running it changes nothing. -/
theorem C4_idempotent_columns_witness :
    ensureColumns demoSheet = (demoSheet, ⟨2, 3, 4, 5⟩) ∧
    ensureColumns ((ensureColumns demoSheet).1) = ensureColumns demoSheet :=
  (C4_idempotent_columns demoSheet).1 2 3 4 5 (by decide) (by decide) (by decide) (by decide)

/-- Claim C9, counterexample: with the credential absent, `main` prints the
error and performs no processing — but it simply returns, so the script ends
normally and the process exit code is 0, not non-zero as claimed. -/
theorem C9_counterexample :
    main [] demoApi demoDecode [demoSheet] = ⟨true, none, 0⟩ ∧
    (main [] demoApi demoDecode [demoSheet]).exitCode = 0 :=
  ⟨rfl, rfl⟩

/-- Claim C9 as amended: if `GEMINI_API_KEY` is absent from the environment (or
set to the empty string, equally falsy), `main` prints the error message and
returns before opening or processing any workbook; the process then terminates
normally with exit code 0. -/
theorem C9_missing_key_aborts (env : List (String × String)) (api : String → GenTrace)
    (decode : String → DecodeResult) (wb : List Sheet)
    (h : env.lookup "GEMINI_API_KEY" = none ∨ env.lookup "GEMINI_API_KEY" = some "") :
    main env api decode wb = ⟨true, none, 0⟩ := by
  rcases h with h | h <;> simp [main, h]

/-- Witness for the amended C9 on a concrete environment without the key. -/
theorem C9_missing_key_aborts_witness :
    main [("HOME", "/root")] demoApi demoDecode [demoSheet] = ⟨true, none, 0⟩ :=
  C9_missing_key_aborts [("HOME", "/root")] demoApi demoDecode [demoSheet]
    (Or.inl (by decide))

/-- Claim C10 (write frame): a pass over a sheet with a resolved `Reviews`
column modifies nothing except header cells beyond the original `max_column`
(the appended output headers) and, in data rows, the four resolved output
columns; every other cell — in particular the whole `Reviews` column — keeps
its original value. -/
theorem C10_write_frame (api : String → GenTrace) (decode : String → DecodeResult)
    (s : Sheet) (revIdx : Nat)
    (hrev : get_column_index s.header "Reviews" = some revIdx) :
    (∀ c, 1 ≤ c → c ≤ maxColumn s →
      getCell (processSheet api decode s) 1 c = getCell s 1 c) ∧
    (∀ r c, 2 ≤ r →
      c ≠ sentCol s → c ≠ staffCol s → c ≠ dishCol s → c ≠ catCol s →
      getCell (processSheet api decode s) r c = getCell s r c) ∧
    (∀ r, 2 ≤ r →
      getCell (processSheet api decode s) r revIdx = getCell s r revIdx) := by
  have main2 : ∀ r c, 2 ≤ r →
      c ≠ sentCol s → c ≠ staffCol s → c ≠ dishCol s → c ≠ catCol s →
      getCell (processSheet api decode s) r c = getCell s r c := by
    intro r c hr h1 h2 h3 h4
    by_cases hlen : r < 2 + s.rows.length
    · have hk : r - 2 < s.rows.length := by omega
      have h2k : 2 + (r - 2) = r := by omega
      have hcell := processSheet_data_cell api decode s revIdx hrev (r - 2) c hk
      rw [h2k] at hcell
      rcases hrv : rowValues api decode revIdx (s.rows.getD (r - 2) []) with _ | q
      · rw [hcell]
        simp only [hrv]
      · rw [hcell]
        simp only [hrv]
        rw [show quadAt ⟨sentCol s, staffCol s, dishCol s, catCol s⟩ q c = none from
          quadAt_none _ _ _ h1 h2 h3 h4]
        rfl
    · exact processSheet_beyond api decode s revIdx hrev r c (by omega)
  refine ⟨fun c _ hc => processSheet_row1 api decode s revIdx hrev c hc, main2, ?_⟩
  intro r hr
  obtain ⟨hr1, hr2, hr3, hr4⟩ := reviewsNe s revIdx hrev
  exact main2 r revIdx hr hr1 hr2 hr3 hr4

/-- Witness for C10: header cell 1 and the reviews cell of data row 2 survive a
pass over the demo sheet. -/
theorem C10_write_frame_witness :
    getCell (processSheet apiMixed demoDecode demoSheet) 1 1 = getCell demoSheet 1 1 ∧
    getCell (processSheet apiMixed demoDecode demoSheet) 2 1 = getCell demoSheet 2 1 :=
  ⟨(C10_write_frame apiMixed demoDecode demoSheet 1 (by decide)).1 1 (by decide) (by decide),
   (C10_write_frame apiMixed demoDecode demoSheet 1 (by decide)).2.2 2 (by decide)⟩

end SentimentAnalysis
